import Mathlib

/-!
Verification of the story playback core of the foto-vista-hub client:
the media classifier (`src/lib/mediaUtils.ts`), the like reconciler and
the playback controller (`src/components/stories/StoryViewer.tsx`).
The TypeScript functions are shallowly embedded as executable Lean
definitions; JavaScript numbers appearing here are exact integers or
exact small rationals, so `Nat`/`Int`/`ℚ` model them faithfully.
-/

namespace FotoVista

/-! ### Strings: JS `String.prototype.startsWith` / `includes` / `toLowerCase` -/

/-- Models JS `pat` being a leading run of `cs` (`String.prototype.startsWith`),
on character lists.  First argument is the pattern. -/
def leadsWith : List Char → List Char → Bool
  | [], _ => true
  | _ :: _, [] => false
  | p :: ps, c :: cs => p == c && leadsWith ps cs

/-- Models JS `String.prototype.includes`: `pat` occurs as a contiguous
substring of `cs`. -/
def containsChars (pat : List Char) : List Char → Bool
  | [] => leadsWith pat []
  | c :: cs => leadsWith pat (c :: cs) || containsChars pat cs

/-- JS `s.startsWith pat` on strings. -/
def strStartsWith (s pat : String) : Bool :=
  leadsWith pat.toList s.toList

/-- JS `s.includes pat` on strings. -/
def strIncludes (s pat : String) : Bool :=
  containsChars pat.toList s.toList

/-- JS `s.toLowerCase()` (ASCII-relevant part). -/
def strToLower (s : String) : String :=
  ⟨s.toList.map Char.toLower⟩

/-! ### Media classifier (`src/lib/mediaUtils.ts`) -/

/-- A browser `File`: only the fields the classifier reads. -/
structure MFile where
  type : String
  size : Nat
deriving DecidableEq, Repr

/-- `isVideoFile` from `mediaUtils.ts`: `file.type.startsWith('video/')`. -/
def isVideoFile (file : MFile) : Bool :=
  strStartsWith file.type "video/"

/-- `isImageFile` from `mediaUtils.ts`: `file.type.startsWith('image/')`. -/
def isImageFile (file : MFile) : Bool :=
  strStartsWith file.type "image/"

/-- The fixed extension list of `isVideoUrl` in `mediaUtils.ts`. -/
def videoExtensions : List String :=
  [".mp4", ".webm", ".mov", ".avi", ".mkv", ".m4v"]

/-- `isVideoUrl` from `mediaUtils.ts`:
`videoExtensions.some(ext => url.toLowerCase().includes(ext))`. -/
def isVideoUrl (url : String) : Bool :=
  videoExtensions.any (fun ext => strIncludes (strToLower url) ext)

/-- The two media kinds the viewer distinguishes. -/
inductive MediaKind where
  | image
  | video
deriving DecidableEq, Repr

/-- Classification of a local file, as used pre-upload: video exactly when
`isVideoFile`, image otherwise. -/
def classifyFile (file : MFile) : MediaKind :=
  if isVideoFile file then .video else .image

/-- Classification of a hosted URL, as used by `StoryViewer`
(`const isVideo = isVideoUrl(currentStory.image_url)` choosing between the
`<video>` and `<img>` render paths): video exactly when `isVideoUrl`,
image otherwise. -/
def classifyUrl (url : String) : MediaKind :=
  if isVideoUrl url then .video else .image

/-! ### Data model (`StoryViewer.tsx` interfaces) -/

/-- The `Story` interface of `StoryViewer.tsx`. -/
structure Story where
  id : String
  user_id : String
  image_url : String
  created_at : String
deriving DecidableEq, Repr

/-- The `UserWithStories` interface of `StoryViewer.tsx`. -/
structure UserWithStories where
  user_id : String
  username : String
  avatar_url : Option String
  stories : List Story
deriving DecidableEq, Repr

/-- Placeholder user for out-of-range index lookups (never hit from states
satisfying the cursor invariant). -/
def defaultUser : UserWithStories :=
  ⟨"", "", none, []⟩

/-- Number of stories of the user at position `u` in the loaded list. -/
def lenAt (S : List UserWithStories) (u : Nat) : Nat :=
  (S.getD u defaultUser).stories.length

/-- Sum of the story counts of all loaded users. -/
def totalStoryCount (S : List UserWithStories) : Nat :=
  (S.map (fun w => w.stories.length)).sum

/-- The playback cursor of the viewer: either open at
(`currentUserIndex`, `currentIndex`, `progress`) — the user position in the
loaded list, the story position within that user, and the progress
percentage — or closed (`onClose` was called). -/
inductive ViewerState where
  | viewing (userIdx storyIdx : Nat) (progress : ℚ)
  | closed
deriving DecidableEq, Repr

/-! ### Playback controller transitions (`StoryViewer.tsx`) -/

/-- `goToNextStory` (lines 121–132): within-user advance when
`currentIndex < userStories.stories.length - 1`; otherwise cross-user
advance to `(currentUserIndex + 1, 0)` when
`currentUserIndex < allUsersStories.length - 1` (`hasNextUser`); otherwise
`onClose()`.  In-bounds progress is reset to 0. -/
def goToNextStory (S : List UserWithStories) : ViewerState → ViewerState
  | .viewing u s _ =>
    if s < lenAt S u - 1 then .viewing u (s + 1) 0
    else if u < S.length - 1 then .viewing (u + 1) 0 0
    else .closed
  | .closed => .closed

/-- `goToPrevStory` (lines 134–144): within-user retreat when
`currentIndex > 0`; otherwise cross-user retreat to
`(currentUserIndex - 1, prevUser.stories.length - 1)` when
`currentUserIndex > 0` (`hasPrevUser`); otherwise nothing happens. -/
def goToPrevStory (S : List UserWithStories) : ViewerState → ViewerState
  | .viewing u s p =>
    if 0 < s then .viewing u (s - 1) 0
    else if 0 < u then .viewing (u - 1) (lenAt S (u - 1) - 1) 0
    else .viewing u s p
  | .closed => .closed

/-- Timer constants of the auto-advance effect (lines 147–165):
`duration = 5000` ms, `interval = 50` ms. -/
def duration : ℚ := 5000

/-- Tick length of the auto-advance interval, in milliseconds. -/
def interval : ℚ := 50

/-- `increment = (interval / duration) * 100`.  In the source this is a JS
double; every value it produces here is the exact integer 1, so ℚ is a
faithful model. -/
def increment : ℚ := interval / duration * 100

/-- One firing of the auto-advance interval callback (image mode, not
paused): `setProgress(prev => { if (prev >= 100) { goToNextStory(); return 0; }
return prev + increment; })`.  When `prev >= 100` the net state is the
`goToNextStory` result (whose open branches already carry progress 0,
matching the callback returning 0). -/
def autoAdvanceTick (S : List UserWithStories) : ViewerState → ViewerState
  | .viewing u s p =>
    if 100 ≤ p then goToNextStory S (.viewing u s p)
    else .viewing u s (p + increment)
  | .closed => .closed

/-! ### Like reconciler (`handleLike`, lines 71–119) -/

/-- One entry of the `likes` record: `{ isLiked, count }`.  `count` is a JS
number only ever moved by ±1 from fetched non-negative values, so `Int` is
a faithful model. -/
structure LikeEntry where
  isLiked : Bool
  count : Int
deriving DecidableEq, Repr

/-- The `likes` record, keyed by story id
(`Record<string, { isLiked; count }>`). -/
def LikesMap := String → Option LikeEntry

/-- JS object spread `{...prev, [id]: v}`: replace or add the binding at
`id`. -/
def setLike (m : LikesMap) (id : String) (v : LikeEntry) : LikesMap :=
  fun x => if x = id then some v else m x

/-- The default applied on every read of the record:
`likes[id] || { isLiked: false, count: 0 }` (lines 77 and 223). -/
def likeStateOf (m : LikesMap) (id : String) : LikeEntry :=
  (m id).getD ⟨false, 0⟩

/-- The remote write issued by `handleLike`: a row insert or delete on
`story_likes`, keyed by `(story_id, user_id)`. -/
inductive RemoteOp where
  | insert (storyId userId : String)
  | delete (storyId userId : String)
deriving DecidableEq, Repr

/-- Result of one `handleLike` invocation: the `likes` record after all
`setLikes` calls have settled, the toast messages shown, and the remote
write issued (if any). -/
structure HandleLikeResult where
  likes : LikesMap
  toasts : List String
  remoteOp : Option RemoteOp

/-- `handleLike` (lines 71–119), with the outcome of the awaited remote
write passed in as `remoteFails`.  Guard: `if (!user || !currentStory)`
shows the sign-in toast and returns.  Otherwise the captured
`storyLike = likes[currentStory.id] || { isLiked: false, count: 0 }`
selects the direction; the optimistic write lands first, the remote
delete/insert is issued, and on error the entry is rolled back to the
captured pre-toggle values and a failure toast is shown.  (The
`isAnimating` flip at lines 79–80 is presentation only and carries no like
state; it is omitted.) -/
def handleLike (user : Option String) (currentStory : Option Story)
    (likes : LikesMap) (remoteFails : Bool) : HandleLikeResult :=
  match user, currentStory with
  | some uid, some story =>
    let storyLike := (likes story.id).getD ⟨false, 0⟩
    if storyLike.isLiked then
      let optimistic := setLike likes story.id ⟨false, storyLike.count - 1⟩
      if remoteFails then
        { likes := setLike optimistic story.id ⟨true, storyLike.count⟩
          toasts := ["Failed to unlike story"]
          remoteOp := some (.delete story.id uid) }
      else
        { likes := optimistic, toasts := [], remoteOp := some (.delete story.id uid) }
    else
      let optimistic := setLike likes story.id ⟨true, storyLike.count + 1⟩
      if remoteFails then
        { likes := setLike optimistic story.id ⟨false, storyLike.count⟩
          toasts := ["Failed to like story"]
          remoteOp := some (.insert story.id uid) }
      else
        { likes := optimistic, toasts := [], remoteOp := some (.insert story.id uid) }
  | _, _ =>
    { likes := likes, toasts := ["Please sign in to like stories"], remoteOp := none }

/-! ### Theorems -/

/-- C1: Advance transition: from cursor `(u, s)`, `goToNextStory` moves to
`(u, s+1)` with progress reset to 0 when `s+1` is still a position in user
`u`'s stories; otherwise, when a next user sequence exists, moves to
`(u+1, 0)` with progress reset to 0; otherwise transitions to Closed. -/
theorem goToNextStory_advance_spec (S : List UserWithStories) (u s : Nat) (p : ℚ) :
    goToNextStory S (.viewing u s p) =
      if s + 1 < lenAt S u then .viewing u (s + 1) 0
      else if u + 1 < S.length then .viewing (u + 1) 0 0
      else .closed := by
  simp only [goToNextStory]
  by_cases h1 : s + 1 < lenAt S u
  · rw [if_pos (by omega), if_pos h1]
  · rw [if_neg (by omega), if_neg h1]
    by_cases h2 : u + 1 < S.length
    · rw [if_pos (by omega), if_pos h2]
    · rw [if_neg (by omega), if_neg h2]

/-- C2: Retreat transition: from cursor `(u, s)` in a loaded list (every
loaded sequence has at least one story), `goToPrevStory` moves to
`(u, s-1)` with progress reset to 0 when `s ≥ 1`; otherwise, when a
previous user sequence exists at `u-1`, moves to `(u-1, last index of user
u-1's stories)` with progress reset to 0; otherwise it is a no-op (the
cursor, necessarily `(0,0)`, is unchanged) — and it never transitions to
Closed. -/
theorem goToPrevStory_retreat_spec (S : List UserWithStories)
    (_hS : ∀ w ∈ S, w.stories ≠ []) (u s : Nat) (p : ℚ) :
    (goToPrevStory S (.viewing u s p) =
      if 1 ≤ s then .viewing u (s - 1) 0
      else if 1 ≤ u then .viewing (u - 1) (lenAt S (u - 1) - 1) 0
      else .viewing u s p)
    ∧ goToPrevStory S (.viewing u s p) ≠ .closed := by
  constructor
  · simp only [goToPrevStory]
    by_cases h1 : 1 ≤ s
    · rw [if_pos (by omega), if_pos h1]
    · rw [if_neg (by omega), if_neg h1]
      by_cases h2 : 1 ≤ u
      · rw [if_pos (by omega), if_pos h2]
      · rw [if_neg (by omega), if_neg h2]
  · simp only [goToPrevStory]
    by_cases h1 : 0 < s
    · simp [h1]
    · by_cases h2 : 0 < u <;> simp [h1, h2]

/-- Witness for C2 at a concrete two-user list and cursor `(1, 0)`:
retreat crosses to the previous user's last story; and at `(0, 0)` the
cursor stays put. -/
theorem goToPrevStory_retreat_spec_witness :
    (∀ w ∈ [⟨"u1", "a", none, [⟨"s1", "u1", "a.jpg", "t"⟩, ⟨"s2", "u1", "b.jpg", "t"⟩]⟩,
            ⟨"u2", "b", none, [⟨"s3", "u2", "c.jpg", "t"⟩]⟩],
        UserWithStories.stories w ≠ []) ∧
    (goToPrevStory
        [⟨"u1", "a", none, [⟨"s1", "u1", "a.jpg", "t"⟩, ⟨"s2", "u1", "b.jpg", "t"⟩]⟩,
         ⟨"u2", "b", none, [⟨"s3", "u2", "c.jpg", "t"⟩]⟩] (.viewing 1 0 0) =
      if 1 ≤ 0 then .viewing 1 (0 - 1) 0
      else if 1 ≤ 1 then
        .viewing (1 - 1)
          (lenAt [⟨"u1", "a", none, [⟨"s1", "u1", "a.jpg", "t"⟩, ⟨"s2", "u1", "b.jpg", "t"⟩]⟩,
                  ⟨"u2", "b", none, [⟨"s3", "u2", "c.jpg", "t"⟩]⟩] (1 - 1) - 1) 0
      else .viewing 1 0 0)
    ∧ goToPrevStory
        [⟨"u1", "a", none, [⟨"s1", "u1", "a.jpg", "t"⟩, ⟨"s2", "u1", "b.jpg", "t"⟩]⟩,
         ⟨"u2", "b", none, [⟨"s3", "u2", "c.jpg", "t"⟩]⟩] (.viewing 1 0 0) ≠ .closed :=
  ⟨by decide, goToPrevStory_retreat_spec _ (by decide) 1 0 0⟩

/-- C4: a like toggle attempted without a viewer identity is rejected with
the auth-required toast, the like map is returned unchanged, and no remote
insert or delete is issued. -/
theorem handleLike_unauthenticated_rejected (story : Option Story)
    (likes : LikesMap) (remoteFails : Bool) :
    handleLike none story likes remoteFails =
      { likes := likes, toasts := ["Please sign in to like stories"],
        remoteOp := none } := by
  cases story <;> rfl

/-- C6: media classification is a total function into {image, video}: a
local file is classified video exactly when its MIME type has the prefix
`video/`; a URL is classified video exactly when its lowercased form
contains one of the fixed video filename extensions; every unrecognized
input defaults to image. -/
theorem media_classifier_spec :
    (∀ f : MFile, classifyFile f = .video ↔ strStartsWith f.type "video/" = true)
    ∧ (∀ url : String, classifyUrl url = .video ↔
        ∃ ext ∈ videoExtensions, strIncludes (strToLower url) ext = true)
    ∧ (∀ url : String,
        (¬ ∃ ext ∈ videoExtensions, strIncludes (strToLower url) ext = true) →
        classifyUrl url = .image)
    ∧ (∀ f : MFile, classifyFile f = .image ∨ classifyFile f = .video)
    ∧ (∀ url : String, classifyUrl url = .image ∨ classifyUrl url = .video) := by
  refine ⟨fun f => ?_, fun url => ?_, fun url h => ?_, fun f => ?_, fun url => ?_⟩
  · unfold classifyFile isVideoFile
    by_cases h : strStartsWith f.type "video/" = true <;> simp [h]
  · unfold classifyUrl isVideoUrl
    by_cases h : videoExtensions.any (fun ext => strIncludes (strToLower url) ext) = true
    · rw [if_pos h]
      rw [List.any_eq_true] at h
      exact ⟨fun _ => h, fun _ => rfl⟩
    · rw [if_neg h]
      constructor
      · intro hc; exact absurd hc (by simp)
      · intro hex
        exact absurd (List.any_eq_true.mpr hex) h
  · unfold classifyUrl isVideoUrl
    rw [if_neg]
    simp only [List.any_eq_true]
    exact fun hc => h hc
  · unfold classifyFile
    by_cases h : isVideoFile f = true <;> simp [h]
  · unfold classifyUrl
    by_cases h : isVideoUrl url = true <;> simp [h]

/-- Witness for C6: a hosted PNG URL containing no video extension is
classified image, and an `mp4` MIME file is classified video. -/
theorem media_classifier_spec_witness :
    classifyUrl "https://cdn.example/p/photo.png" = .image
    ∧ classifyFile ⟨"video/mp4", 5⟩ = .video :=
  ⟨media_classifier_spec.2.2.1 "https://cdn.example/p/photo.png" (by decide),
   (media_classifier_spec.1 ⟨"video/mp4", 5⟩).mpr (by decide)⟩

/-- C10: for a story whose like state has not been fetched into the local
map, `handleLike` treats it as `(isLiked = false, count = 0)`: the toggle
takes the like direction, issues a remote insert, shows no failure toast,
and sets the local state for that story to `(isLiked = true, count = 1)`. -/
theorem handleLike_default_entry (uid : String) (story : Story)
    (likes : LikesMap) (h : likes story.id = none) :
    handleLike (some uid) (some story) likes false =
      { likes := setLike likes story.id ⟨true, 1⟩, toasts := [],
        remoteOp := some (.insert story.id uid) }
    ∧ likeStateOf (handleLike (some uid) (some story) likes false).likes story.id
        = ⟨true, 1⟩ := by
  constructor
  · simp [handleLike, h]
  · simp [handleLike, h, likeStateOf, setLike]

/-- Witness for C10 at an empty like map and a concrete story. -/
theorem handleLike_default_entry_witness :
    (fun _ => none : LikesMap) "s1" = none
    ∧ (handleLike (some "alice") (some ⟨"s1", "bob", "a.jpg", "t"⟩)
          (fun _ => none) false =
        { likes := setLike (fun _ => none) "s1" ⟨true, 1⟩, toasts := [],
          remoteOp := some (.insert "s1" "alice") }
      ∧ likeStateOf (handleLike (some "alice") (some ⟨"s1", "bob", "a.jpg", "t"⟩)
            (fun _ => none) false).likes "s1" = ⟨true, 1⟩) :=
  ⟨rfl, handleLike_default_entry "alice" ⟨"s1", "bob", "a.jpg", "t"⟩ (fun _ => none) rfl⟩

/-- C3: like rollback atomicity: when the remote write fails (in either
the like/insert or the unlike/delete direction, covered by the
quantification over the prior map), the like state read at every story id
after the toggle equals the pre-toggle state exactly, and a failure toast
is surfaced. -/
theorem handleLike_rollback_on_failure (uid : String) (story : Story)
    (likes : LikesMap) (id : String) :
    likeStateOf (handleLike (some uid) (some story) likes true).likes id
      = likeStateOf likes id
    ∧ (handleLike (some uid) (some story) likes true).toasts ≠ [] := by
  cases h : likes story.id with
  | none =>
    constructor
    · by_cases hid : id = story.id
      · subst hid; simp [handleLike, h, likeStateOf, setLike]
      · simp [handleLike, h, likeStateOf, setLike, hid]
    · simp [handleLike, h]
  | some e =>
    obtain ⟨b, c⟩ := e
    cases b
    · constructor
      · by_cases hid : id = story.id
        · subst hid; simp [handleLike, h, likeStateOf, setLike]
        · simp [handleLike, h, likeStateOf, setLike, hid]
      · simp [handleLike, h]
    · constructor
      · by_cases hid : id = story.id
        · subst hid; simp [handleLike, h, likeStateOf, setLike]
        · simp [handleLike, h, likeStateOf, setLike, hid]
      · simp [handleLike, h]

/-- Witness for C3 at a concrete story with no prior entry: the failed
like leaves the read state at the default and shows a toast. -/
theorem handleLike_rollback_on_failure_witness :
    likeStateOf (handleLike (some "alice") (some ⟨"s1", "bob", "a.jpg", "t"⟩)
        (fun _ => none) true).likes "s1"
      = likeStateOf (fun _ => none) "s1"
    ∧ (handleLike (some "alice") (some ⟨"s1", "bob", "a.jpg", "t"⟩)
        (fun _ => none) true).toasts ≠ [] :=
  handleLike_rollback_on_failure "alice" ⟨"s1", "bob", "a.jpg", "t"⟩ (fun _ => none) "s1"

/-- C8: like-toggle involution: toggling twice in succession with both
remote writes succeeding returns the like state read at every story id to
its pre-toggle value. -/
theorem handleLike_toggle_involution (uid : String) (story : Story)
    (likes : LikesMap) (id : String) :
    likeStateOf (handleLike (some uid) (some story)
        (handleLike (some uid) (some story) likes false).likes false).likes id
      = likeStateOf likes id := by
  cases h : likes story.id with
  | none =>
    by_cases hid : id = story.id
    · subst hid; simp [handleLike, h, likeStateOf, setLike]
    · simp [handleLike, h, likeStateOf, setLike, hid]
  | some e =>
    obtain ⟨b, c⟩ := e
    cases b
    · by_cases hid : id = story.id
      · subst hid
        simp [handleLike, h, likeStateOf, setLike, Int.add_sub_cancel]
      · simp [handleLike, h, likeStateOf, setLike, hid]
    · by_cases hid : id = story.id
      · subst hid
        simp [handleLike, h, likeStateOf, setLike, Int.sub_add_cancel]
      · simp [handleLike, h, likeStateOf, setLike, hid]

/-- The tick increment `(50 / 5000) * 100` is exactly 1 (this is also
exact in JS double arithmetic, so the ℚ model does not drift). -/
lemma increment_eq_one : increment = 1 := by
  norm_num [increment, interval, duration]

/-- Iterating the image tick from progress 0 for `n ≤ 100` ticks leaves
the cursor in place with progress exactly `n`. -/
lemma autoAdvanceTick_iterate (S : List UserWithStories) (u s : Nat) :
    ∀ n : Nat, n ≤ 100 →
      (autoAdvanceTick S)^[n] (.viewing u s 0) = .viewing u s n := by
  intro n
  induction n with
  | zero => intro _; simp
  | succ k ih =>
    intro hk
    rw [Function.iterate_succ_apply', ih (by omega)]
    have hklt : (k : ℚ) < 100 := by exact_mod_cast (by omega : k < 100)
    simp only [autoAdvanceTick]
    rw [if_neg (not_le.mpr hklt), increment_eq_one]
    congr 1
    push_cast
    ring

/-- C5: the image-mode auto-advance timer: below 100% each 50 ms tick adds
the fixed increment `(50 / 5000) * 100 = 1`, so progress reaches exactly
100% after `5000 / 50` ticks (5000 ms); a tick seeing progress at (or
past) 100% triggers the `goToNextStory` advance transition, and whenever
that transition leaves the viewer open the progress is reset to 0. -/
theorem autoAdvance_timer_spec :
    (∀ (S : List UserWithStories) (u s : Nat) (p : ℚ), p < 100 →
        autoAdvanceTick S (.viewing u s p) = .viewing u s (p + increment))
    ∧ increment = 1
    ∧ (∀ (S : List UserWithStories) (u s : Nat),
        (autoAdvanceTick S)^[5000 / 50] (.viewing u s 0) = .viewing u s 100)
    ∧ (∀ (S : List UserWithStories) (u s : Nat) (p : ℚ), 100 ≤ p →
        autoAdvanceTick S (.viewing u s p) = goToNextStory S (.viewing u s p))
    ∧ (∀ (S : List UserWithStories) (u s : Nat) (p : ℚ) (u' s' : Nat) (p' : ℚ),
        100 ≤ p → autoAdvanceTick S (.viewing u s p) = .viewing u' s' p' →
        p' = 0) := by
  refine ⟨fun S u s p hp => ?_, increment_eq_one, fun S u s => ?_,
    fun S u s p hp => ?_, fun S u s p u' s' p' hp heq => ?_⟩
  · simp only [autoAdvanceTick]
    rw [if_neg (not_le.mpr hp)]
  · have h100 : (5000 : Nat) / 50 = 100 := by norm_num
    rw [h100, autoAdvanceTick_iterate S u s 100 le_rfl]
    norm_num
  · simp only [autoAdvanceTick]
    rw [if_pos hp]
  · simp only [autoAdvanceTick] at heq
    rw [if_pos hp] at heq
    simp only [goToNextStory] at heq
    by_cases h1 : s < lenAt S u - 1
    · rw [if_pos h1] at heq
      cases heq
      rfl
    · rw [if_neg h1] at heq
      by_cases h2 : u < S.length - 1
      · rw [if_pos h2] at heq
        cases heq
        rfl
      · rw [if_neg h2] at heq
        cases heq

/-- Witness for C5 at concrete inputs: one tick at progress 50 adds the
increment; a tick at 100 triggers the advance, which resets progress to 0
on the one-user two-story list. -/
theorem autoAdvance_timer_spec_witness :
    ((50 : ℚ) < 100
      ∧ autoAdvanceTick [] (.viewing 0 0 50) = .viewing 0 0 (50 + increment))
    ∧ ((100 : ℚ) ≤ 100
      ∧ autoAdvanceTick [] (.viewing 0 0 100) = goToNextStory [] (.viewing 0 0 100))
    ∧ (0 : ℚ) = 0 :=
  ⟨⟨by norm_num, autoAdvance_timer_spec.1 [] 0 0 50 (by norm_num)⟩,
   ⟨le_rfl, autoAdvance_timer_spec.2.2.2.1 [] 0 0 100 le_rfl⟩,
   autoAdvance_timer_spec.2.2.2.2
     [⟨"u1", "a", none, [⟨"s1", "u1", "a.jpg", "t"⟩, ⟨"s2", "u1", "b.jpg", "t"⟩]⟩]
     0 0 100 0 1 0 le_rfl
     (by norm_num [autoAdvanceTick, goToNextStory, lenAt, List.getD])⟩

/-! ### Reachability and the cursor invariant -/

/-- States reachable by the playback operations of `StoryViewer`: initial
load at `(0, 0)` with progress 0, `goToNextStory` (advance),
`goToPrevStory` (retreat), the image auto-advance tick, and external
navigation to a selected loaded user (which resets to story 0, progress 0
via the user-change effect at lines 218–221). -/
inductive Reaches (S : List UserWithStories) : ViewerState → Prop where
  | load : Reaches S (.viewing 0 0 0)
  | next {st : ViewerState} : Reaches S st → Reaches S (goToNextStory S st)
  | prev {st : ViewerState} : Reaches S st → Reaches S (goToPrevStory S st)
  | tick {st : ViewerState} : Reaches S st → Reaches S (autoAdvanceTick S st)
  | navigate {st : ViewerState} (j : Nat) :
      j < S.length → Reaches S st → Reaches S (.viewing j 0 0)

/-- Strengthened cursor invariant: open states carry a valid user index, a
valid story index for that user, and progress equal to a natural number at
most 100. -/
def GoodState (S : List UserWithStories) : ViewerState → Prop
  | .viewing u s p =>
      u < S.length ∧ s < lenAt S u ∧ ∃ n : Nat, n ≤ 100 ∧ p = n
  | .closed => True

lemma getD_mem_of_lt : ∀ (S : List UserWithStories) (u : Nat),
    u < S.length → S.getD u defaultUser ∈ S := by
  intro S u h
  rw [List.getD_eq_getElem S defaultUser h]
  exact List.getElem_mem h

lemma lenAt_pos {S : List UserWithStories} {u : Nat}
    (hS : ∀ w ∈ S, w.stories ≠ []) (hu : u < S.length) : 0 < lenAt S u := by
  have hmem := getD_mem_of_lt S u hu
  have := hS _ hmem
  unfold lenAt
  exact List.length_pos.mpr this

lemma goodState_next {S : List UserWithStories} {st : ViewerState}
    (hS : ∀ w ∈ S, w.stories ≠ []) (hg : GoodState S st) :
    GoodState S (goToNextStory S st) := by
  cases st with
  | closed => trivial
  | viewing u s p =>
    obtain ⟨hu, hs, _⟩ := hg
    simp only [goToNextStory]
    by_cases h1 : s < lenAt S u - 1
    · rw [if_pos h1]
      exact ⟨hu, by omega, 0, by omega, by norm_num⟩
    · rw [if_neg h1]
      by_cases h2 : u < S.length - 1
      · rw [if_pos h2]
        have hu1 : u + 1 < S.length := by omega
        exact ⟨hu1, lenAt_pos hS hu1, 0, by omega, by norm_num⟩
      · rw [if_neg h2]
        trivial

lemma goodState_prev {S : List UserWithStories} {st : ViewerState}
    (hS : ∀ w ∈ S, w.stories ≠ []) (hg : GoodState S st) :
    GoodState S (goToPrevStory S st) := by
  cases st with
  | closed => trivial
  | viewing u s p =>
    obtain ⟨hu, hs, hp⟩ := hg
    simp only [goToPrevStory]
    by_cases h1 : 0 < s
    · rw [if_pos h1]
      exact ⟨hu, by omega, 0, by omega, by norm_num⟩
    · rw [if_neg h1]
      by_cases h2 : 0 < u
      · rw [if_pos h2]
        have hu1 : u - 1 < S.length := by omega
        exact ⟨hu1, by have := lenAt_pos hS hu1; omega, 0, by omega, by norm_num⟩
      · rw [if_neg h2]
        exact ⟨hu, hs, hp⟩

lemma goodState_tick {S : List UserWithStories} {st : ViewerState}
    (hS : ∀ w ∈ S, w.stories ≠ []) (hg : GoodState S st) :
    GoodState S (autoAdvanceTick S st) := by
  cases st with
  | closed => trivial
  | viewing u s p =>
    obtain ⟨hu, hs, n, hn, hpn⟩ := hg
    simp only [autoAdvanceTick]
    by_cases h1 : (100 : ℚ) ≤ p
    · rw [if_pos h1]
      exact goodState_next hS ⟨hu, hs, n, hn, hpn⟩
    · rw [if_neg h1]
      refine ⟨hu, hs, n + 1, ?_, ?_⟩
      · have : (n : ℚ) < 100 := hpn ▸ not_le.mp h1
        have : n < 100 := by exact_mod_cast this
        omega
      · rw [hpn, increment_eq_one]
        push_cast
        ring

lemma reaches_goodState {S : List UserWithStories} {st : ViewerState}
    (hne : S ≠ []) (hS : ∀ w ∈ S, w.stories ≠ [])
    (hr : Reaches S st) : GoodState S st := by
  induction hr with
  | load =>
    have h0 : 0 < S.length := List.length_pos.mpr hne
    exact ⟨h0, lenAt_pos hS h0, 0, by omega, by norm_num⟩
  | next _ ih => exact goodState_next hS ih
  | prev _ ih => exact goodState_prev hS ih
  | tick _ ih => exact goodState_tick hS ih
  | navigate j hj _ _ =>
    exact ⟨hj, lenAt_pos hS hj, 0, by omega, by norm_num⟩

/-- C9: cursor invariant: in every state reachable by load, advance,
retreat, timer tick and external navigation over a loaded list (non-empty,
every sequence non-empty), the story index is a valid index into the
active user's stories (and the user index into the list), and the progress
percentage lies in [0, 100]. -/
theorem reachable_cursor_invariant (S : List UserWithStories)
    (st : ViewerState) (hne : S ≠ []) (hS : ∀ w ∈ S, w.stories ≠ [])
    (hr : Reaches S st) (u s : Nat) (p : ℚ) (hst : st = .viewing u s p) :
    u < S.length ∧ s < lenAt S u ∧ 0 ≤ p ∧ p ≤ 100 := by
  have hg := reaches_goodState hne hS hr
  subst hst
  obtain ⟨hu, hs, n, hn, hpn⟩ := hg
  refine ⟨hu, hs, ?_, ?_⟩
  · rw [hpn]; positivity
  · rw [hpn]; exact_mod_cast hn

/-- Witness for C9: the freshly loaded state on a concrete one-user list
satisfies the invariant. -/
theorem reachable_cursor_invariant_witness :
    0 < ([⟨"u1", "a", none, [⟨"s1", "u1", "a.jpg", "t"⟩]⟩] : List UserWithStories).length
    ∧ 0 < lenAt [⟨"u1", "a", none, [⟨"s1", "u1", "a.jpg", "t"⟩]⟩] 0
    ∧ (0 : ℚ) ≤ 0 ∧ (0 : ℚ) ≤ 100 :=
  reachable_cursor_invariant
    [⟨"u1", "a", none, [⟨"s1", "u1", "a.jpg", "t"⟩]⟩]
    (.viewing 0 0 0) (by decide) (by decide) Reaches.load 0 0 0 rfl

/-! ### Advance termination -/

/-- Stories still ahead of user position `u` (inclusive): the sum of the
story counts of users `u, u+1, …`. -/
def restSum (S : List UserWithStories) (u : Nat) : Nat :=
  ((S.drop u).map (fun w => w.stories.length)).sum

lemma restSum_zero (S : List UserWithStories) : restSum S 0 = totalStoryCount S := by
  simp [restSum, totalStoryCount]

lemma restSum_of_le {S : List UserWithStories} {u : Nat}
    (h : S.length ≤ u) : restSum S u = 0 := by
  unfold restSum
  rw [List.drop_eq_nil_of_le h]
  rfl

lemma restSum_succ {S : List UserWithStories} {u : Nat} (h : u < S.length) :
    restSum S u = lenAt S u + restSum S (u + 1) := by
  unfold restSum lenAt
  rw [List.drop_eq_getElem_cons h, List.map_cons, List.sum_cons,
    List.getD_eq_getElem S defaultUser h]

lemma lenAt_le_restSum {S : List UserWithStories} {u : Nat} (h : u < S.length) :
    lenAt S u ≤ restSum S u := by
  rw [restSum_succ h]
  omega

/-- Applying `goToNextStory` exactly `restSum S u - s` times from a valid
cursor `(u, s)` closes the viewer (stated with the count in the form
`k + 1`; `restSum S u - s ≥ 1` always holds at valid cursors). -/
lemma goToNextStory_iterate_closed (S : List UserWithStories)
    (hS : ∀ w ∈ S, w.stories ≠ []) :
    ∀ (k u s : Nat) (p : ℚ), u < S.length → s < lenAt S u →
      restSum S u = s + (k + 1) →
      (goToNextStory S)^[k + 1] (.viewing u s p) = .closed := by
  intro k
  induction k with
  | zero =>
    intro u s p hu hs hsum
    have hrs := restSum_succ hu
    rw [Function.iterate_one]
    simp only [goToNextStory]
    by_cases h1 : s < lenAt S u - 1
    · omega
    · rw [if_neg h1]
      by_cases h2 : u < S.length - 1
      · exfalso
        have hu1 : u + 1 < S.length := by omega
        have := lenAt_pos hS hu1
        have := lenAt_le_restSum hu1
        omega
      · rw [if_neg h2]
  | succ k ih =>
    intro u s p hu hs hsum
    rw [Function.iterate_succ_apply]
    have hrs := restSum_succ hu
    by_cases h1 : s < lenAt S u - 1
    · rw [show goToNextStory S (.viewing u s p) = .viewing u (s + 1) 0 by
        simp only [goToNextStory]; rw [if_pos h1]]
      exact ih u (s + 1) 0 hu (by omega) (by omega)
    · by_cases h2 : u < S.length - 1
      · have hu1 : u + 1 < S.length := by omega
        rw [show goToNextStory S (.viewing u s p) = .viewing (u + 1) 0 0 by
          simp only [goToNextStory]; rw [if_neg h1, if_pos h2]]
        exact ih (u + 1) 0 0 hu1 (lenAt_pos hS hu1) (by omega)
      · exfalso
        have : restSum S (u + 1) = 0 := restSum_of_le (by omega)
        omega

/-- C7: advance termination: for every loaded non-empty list of story
sequences (each with at least one story), applying `goToNextStory` exactly
`totalStoryCount S` times starting from `(0, 0)` reaches the Closed
state. -/
theorem advance_reaches_closed (S : List UserWithStories)
    (hne : S ≠ []) (hS : ∀ w ∈ S, w.stories ≠ []) :
    (goToNextStory S)^[totalStoryCount S] (.viewing 0 0 0) = .closed := by
  have h0 : 0 < S.length := List.length_pos.mpr hne
  have hlen0 : 0 < lenAt S 0 := lenAt_pos hS h0
  have htot : restSum S 0 = totalStoryCount S := restSum_zero S
  have htot1 : 1 ≤ totalStoryCount S := by
    have := lenAt_le_restSum h0
    omega
  have hk : totalStoryCount S = (totalStoryCount S - 1) + 1 := by omega
  rw [hk]
  exact goToNextStory_iterate_closed S hS (totalStoryCount S - 1) 0 0 0 h0 hlen0
    (by omega)

/-- Witness for C7 on a concrete two-user list (2 + 1 stories): three
advances from `(0, 0)` close the viewer. -/
theorem advance_reaches_closed_witness :
    (([⟨"u1", "a", none, [⟨"s1", "u1", "a.jpg", "t"⟩, ⟨"s2", "u1", "b.jpg", "t"⟩]⟩,
       ⟨"u2", "b", none, [⟨"s3", "u2", "c.mp4", "t"⟩]⟩] : List UserWithStories) ≠ []
      ∧ ∀ w ∈ ([⟨"u1", "a", none, [⟨"s1", "u1", "a.jpg", "t"⟩, ⟨"s2", "u1", "b.jpg", "t"⟩]⟩,
                ⟨"u2", "b", none, [⟨"s3", "u2", "c.mp4", "t"⟩]⟩] : List UserWithStories),
          w.stories ≠ [])
    ∧ (goToNextStory
        [⟨"u1", "a", none, [⟨"s1", "u1", "a.jpg", "t"⟩, ⟨"s2", "u1", "b.jpg", "t"⟩]⟩,
         ⟨"u2", "b", none, [⟨"s3", "u2", "c.mp4", "t"⟩]⟩])^[totalStoryCount
        [⟨"u1", "a", none, [⟨"s1", "u1", "a.jpg", "t"⟩, ⟨"s2", "u1", "b.jpg", "t"⟩]⟩,
         ⟨"u2", "b", none, [⟨"s3", "u2", "c.mp4", "t"⟩]⟩]] (.viewing 0 0 0) = .closed :=
  ⟨⟨by decide, by decide⟩,
   advance_reaches_closed _ (by decide) (by decide)⟩

end FotoVista
